import Mathlib

/-!
Verification of the Coldstar live wallet core (`tui_wallet.py`, `token_fetcher.py`)
against its natural-language specification.

The Python source is shallowly embedded: each relevant method becomes an
executable Lean definition over explicit state records.  Lamport amounts are
`Int` (Python ints); SOL amounts parsed from user input or divided by 1e9 are
idealised as `ℚ`.  Fallible lookups become `Option`.  External collaborators
(the RPC client, the address validator, Python's `float` parser) are parameters
of the definitions that use them.
-/

namespace Coldstar

/-- One whole SOL in lamports, the divisor used throughout `tui_wallet.py`. -/
def lamportsPerSol : ℚ := 1000000000

/-- Convert an integer lamport amount to SOL, as in `x / 1_000_000_000`. -/
def lamportsToSol (n : Int) : ℚ := (n : ℚ) / lamportsPerSol

/-- A raw transaction summary as returned by `getSignaturesForAddress`
(the base fields copied by `dict(tx)` in `_enrich_transactions`). -/
structure RawTx where
  signature : String
  slot : Nat
  blockTime : Option Int
  err : Option String
  deriving Repr, DecidableEq

/-- The parts of a `getTransactionDetails` result read by `_enrich_transactions`:
`message.accountKeys` (pubkeys), `meta.preBalances`, `meta.postBalances`, `meta.fee`. -/
structure TxDetail where
  accountKeys : List String
  preBalances : List Int
  postBalances : List Int
  fee : Int
  deriving Repr, DecidableEq

/-- An enriched transaction entry.  `direction`, `sol_delta` and `fee_sol`
are `none` exactly when the corresponding dict key is absent in the Python
entry (the data model maps an absent direction to `unknown`). -/
structure EnrichedTx where
  signature : String
  slot : Nat
  blockTime : Option Int
  err : Option String
  direction : Option String := none
  sol_delta : Option ℚ := none
  fee_sol : Option ℚ := none
  deriving Repr, DecidableEq

/-- The base entry `dict(tx)`: raw fields copied, no enrichment keys. -/
def baseEntry (tx : RawTx) : EnrichedTx :=
  { signature := tx.signature, slot := tx.slot, blockTime := tx.blockTime, err := tx.err }

/-- The body of the `for tx in txs` loop of
`ColdstarLiveWallet._enrich_transactions` (tui_wallet.py lines 1220-1252),
for one entry.  `details` models `self.network.get_transaction_details`:
`none` is a failed or empty detail fetch, which leaves the bare copied entry. -/
def enrich_one (details : String → Option TxDetail) (pubkey : String) (tx : RawTx) :
    EnrichedTx :=
  match details tx.signature with
  | none => baseEntry tx
  | some d =>
    let entry := baseEntry tx
    let entry :=
      if pubkey ∈ d.accountKeys then
        let idx := d.accountKeys.indexOf pubkey
        if idx < d.preBalances.length ∧ idx < d.postBalances.length then
          let deltaLamports := d.postBalances.getD idx 0 - d.preBalances.getD idx 0
          if idx = 0 ∧ deltaLamports < 0 then
            let sendAmount := -(lamportsToSol (deltaLamports + d.fee))
            { entry with sol_delta := some (-sendAmount), direction := some "sent" }
          else if deltaLamports > 0 then
            { entry with sol_delta := some (lamportsToSol deltaLamports),
                         direction := some "received" }
          else
            { entry with sol_delta := some (lamportsToSol deltaLamports),
                         direction := some "other" }
        else entry
      else entry
    { entry with fee_sol := some (lamportsToSol d.fee) }

/-- `ColdstarLiveWallet._enrich_transactions` (tui_wallet.py lines 1217-1253):
one output entry appended per input entry, in input order. -/
def enrich_transactions (details : String → Option TxDetail) (pubkey : String)
    (txs : List RawTx) : List EnrichedTx :=
  txs.map (enrich_one details pubkey)

end Coldstar

namespace Coldstar

/-- C2: in the fee-payer sent case the enriched delta is the claimed formula. -/
theorem enrich_sent_case (details : String → Option TxDetail) (pubkey : String)
    (tx : RawTx) (d : TxDetail) (pre0 post0 : Int) (preRest postRest : List Int)
    (hdet : details tx.signature = some d)
    (hhead : ∃ rest, d.accountKeys = pubkey :: rest)
    (hpre : d.preBalances = pre0 :: preRest)
    (hpost : d.postBalances = post0 :: postRest)
    (hdec : post0 - pre0 < 0) :
    (enrich_one details pubkey tx).direction = some "sent" ∧
    (enrich_one details pubkey tx).sol_delta =
      some (-(((pre0 - post0 - d.fee : Int) : ℚ) / lamportsPerSol)) := by
  obtain ⟨rest, hkeys⟩ := hhead
  have hmem : pubkey ∈ d.accountKeys := by rw [hkeys]; exact List.mem_cons_self _ _
  have hidx : d.accountKeys.indexOf pubkey = 0 := by
    rw [hkeys]; exact List.indexOf_cons_self _ _
  have hlen : d.accountKeys.indexOf pubkey < d.preBalances.length ∧
      d.accountKeys.indexOf pubkey < d.postBalances.length := by
    rw [hidx, hpre, hpost]; exact ⟨Nat.zero_lt_succ _, Nat.zero_lt_succ _⟩
  have hdelta : d.postBalances.getD (d.accountKeys.indexOf pubkey) 0 -
      d.preBalances.getD (d.accountKeys.indexOf pubkey) 0 = post0 - pre0 := by
    rw [hidx, hpre, hpost]; rfl
  have hsent : d.accountKeys.indexOf pubkey = 0 ∧
      d.postBalances.getD (d.accountKeys.indexOf pubkey) 0 -
        d.preBalances.getD (d.accountKeys.indexOf pubkey) 0 < 0 :=
    ⟨hidx, by rw [hdelta]; exact hdec⟩
  simp only [enrich_one, hdet]
  rw [if_pos hmem, if_pos hlen, if_pos hsent, hdelta]
  refine ⟨rfl, ?_⟩
  simp only [lamportsToSol, neg_neg]
  congr 1
  push_cast
  ring

/-- C3: with the owner present and balances indexable, outside the sent case a
positive delta is `received` and otherwise the entry is `other`, with the raw
delta in native units in both cases. -/
theorem enrich_received_other_case (details : String → Option TxDetail)
    (pubkey : String) (tx : RawTx) (d : TxDetail)
    (hdet : details tx.signature = some d)
    (hmem : pubkey ∈ d.accountKeys)
    (hpre : d.accountKeys.indexOf pubkey < d.preBalances.length)
    (hpost : d.accountKeys.indexOf pubkey < d.postBalances.length)
    (hnotsent : ¬ (d.accountKeys.indexOf pubkey = 0 ∧
      d.postBalances.getD (d.accountKeys.indexOf pubkey) 0 -
        d.preBalances.getD (d.accountKeys.indexOf pubkey) 0 < 0)) :
    (let delta := d.postBalances.getD (d.accountKeys.indexOf pubkey) 0 -
        d.preBalances.getD (d.accountKeys.indexOf pubkey) 0
     (enrich_one details pubkey tx).direction =
        some (if delta > 0 then "received" else "other") ∧
     (enrich_one details pubkey tx).sol_delta = some (lamportsToSol delta)) := by
  simp only [enrich_one, hdet]
  rw [if_pos hmem, if_pos (And.intro hpre hpost), if_neg hnotsent]
  by_cases hpos : d.postBalances.getD (d.accountKeys.indexOf pubkey) 0 -
      d.preBalances.getD (d.accountKeys.indexOf pubkey) 0 > 0
  · rw [if_pos hpos, if_pos hpos]; exact ⟨rfl, rfl⟩
  · rw [if_neg hpos, if_neg hpos]; exact ⟨rfl, rfl⟩

/-- A concrete detail record for exercising the sent branch: payer at
index 0, balance drops by 1_000_005_000 lamports, 5_000 lamport fee. -/
def sentDetail : TxDetail :=
  { accountKeys := ["owner", "dest"],
    preBalances := [2000005000, 0],
    postBalances := [1000000000, 1000000000],
    fee := 5000 }

/-- A concrete detail lookup returning `sentDetail` for signature "sig1". -/
def sentDetails : String → Option TxDetail :=
  fun s => if s = "sig1" then some sentDetail else none

/-- The raw entry whose detail lookup hits `sentDetail`. -/
def sentRawTx : RawTx :=
  { signature := "sig1", slot := 7, blockTime := none, err := none }

/-- A concrete detail record for exercising the received branch: owner at
index 1 gains 1 SOL. -/
def recvDetail : TxDetail :=
  { accountKeys := ["payer", "owner"],
    preBalances := [2000005000, 0],
    postBalances := [1000000000, 1000000000],
    fee := 5000 }

/-- A concrete detail lookup returning `recvDetail` for signature "sig2". -/
def recvDetails : String → Option TxDetail :=
  fun s => if s = "sig2" then some recvDetail else none

/-- The raw entry whose detail lookup hits `recvDetail`. -/
def recvRawTx : RawTx :=
  { signature := "sig2", slot := 8, blockTime := none, err := none }

/-- Witness for C2 at a concrete transaction: the enriched entry is sent
with delta -(1 SOL). -/
theorem enrich_sent_case_witness :
    (enrich_one sentDetails "owner" sentRawTx).direction = some "sent" ∧
    (enrich_one sentDetails "owner" sentRawTx).sol_delta =
      some (-(((2000005000 - 1000000000 - 5000 : Int) : ℚ) / lamportsPerSol)) := by
  exact enrich_sent_case sentDetails "owner" sentRawTx sentDetail
    2000005000 1000000000 [0] [1000000000]
    (by decide) ⟨["dest"], rfl⟩ rfl rfl (by decide)

/-- Witness for C3 at a concrete transaction: owner at index 1 receives
1 SOL, so the entry is `received` with delta 1 SOL. -/
theorem enrich_received_other_case_witness :
    (enrich_one recvDetails "owner" recvRawTx).direction = some "received" ∧
    (enrich_one recvDetails "owner" recvRawTx).sol_delta =
      some (lamportsToSol 1000000000) := by
  have h := enrich_received_other_case recvDetails "owner" recvRawTx recvDetail
    (by decide) (by decide) (by decide) (by decide) (by decide)
  simpa using h

/-- Enrichment never changes the copied signature field. -/
lemma enrich_one_signature (details : String → Option TxDetail) (pubkey : String)
    (tx : RawTx) : (enrich_one details pubkey tx).signature = tx.signature := by
  unfold enrich_one
  cases details tx.signature with
  | none => rfl
  | some d =>
    simp only [baseEntry]
    split
    · split
      · split
        · rfl
        · split <;> rfl
      · rfl
    · rfl

/-- A failed detail lookup leaves exactly the bare copied entry. -/
lemma enrich_one_of_fail (details : String → Option TxDetail) (pubkey : String)
    (tx : RawTx) (h : details tx.signature = none) :
    enrich_one details pubkey tx = baseEntry tx := by
  unfold enrich_one
  rw [h]

/-- C7: enrichment yields exactly one output entry per input entry, in input
order; an entry whose detail fetch fails is kept with no direction and no
amount fields, and the rest of the batch is still enriched. -/
theorem enrich_isolates_entry_failures (details : String → Option TxDetail)
    (pubkey : String) (txs : List RawTx) :
    (enrich_transactions details pubkey txs).length = txs.length ∧
    ∀ (i : Nat) (tx : RawTx), txs[i]? = some tx →
      ∃ e : EnrichedTx, (enrich_transactions details pubkey txs)[i]? = some e ∧
        e.signature = tx.signature ∧
        (details tx.signature = none →
          e.direction = none ∧ e.sol_delta = none ∧ e.fee_sol = none) := by
  constructor
  · exact List.length_map _ _
  · intro i tx hget
    refine ⟨enrich_one details pubkey tx, ?_, enrich_one_signature _ _ _, ?_⟩
    · rw [enrich_transactions, List.getElem?_map, hget]; rfl
    · intro hfail
      rw [enrich_one_of_fail _ _ _ hfail]
      exact ⟨rfl, rfl, rfl⟩

/-- A batch mixing a successful lookup with a failing one. -/
def mixedTxs : List RawTx :=
  [sentRawTx, { signature := "sigFail", slot := 9, blockTime := none, err := none }]

/-- Witness for C7: in a two-entry batch whose second lookup fails, the output
has two entries and the second is kept bare. -/
theorem enrich_isolates_entry_failures_witness :
    (enrich_transactions sentDetails "owner" mixedTxs).length = 2 ∧
    ∃ e, (enrich_transactions sentDetails "owner" mixedTxs)[1]? = some e ∧
      e.signature = "sigFail" ∧
      e.direction = none ∧ e.sol_delta = none ∧ e.fee_sol = none := by
  obtain ⟨hlen, hentries⟩ :=
    enrich_isolates_entry_failures sentDetails "owner" mixedTxs
  refine ⟨hlen, ?_⟩
  obtain ⟨e, hsome, hsig, hfail⟩ := hentries 1
    { signature := "sigFail", slot := 9, blockTime := none, err := none } (by decide)
  obtain ⟨h1, h2, h3⟩ := hfail (by decide)
  exact ⟨e, hsome, hsig, h1, h2, h3⟩

/-- Modelled from the spec: `getSignaturesForAddress(pubkey, limit, before)`
of the network layer (network.py is imported by tui_wallet.py but is not among
the sources; spec section 6 declares the interface and section 4.4 its
semantics for a `before` cursor).  From the newest-first chain listing it
returns up to `limit` entries strictly older than the `before` signature
(exclusive bound). -/
def getSignaturesBefore (chain : List RawTx) (before : String) (limit : Nat) :
    List RawTx :=
  ((chain.dropWhile (fun t => t.signature != before)).drop 1).take limit

/-- `ColdstarLiveWallet.on_transaction_history_panel_load_more` plus its worker
`_fetch_more_txs` (tui_wallet.py lines 1367-1399): the cursor is the signature
of the last (oldest) held entry; the freshly fetched page of 10 is enriched and
appended to the existing list, which is never replaced. -/
def load_more_txs (chain : List RawTx) (details : String → Option TxDetail)
    (pubkey : Option String) (existing : List EnrichedTx) : List EnrichedTx :=
  match pubkey with
  | none => existing
  | some pk =>
    match existing.getLast? with
    | none => existing
    | some last =>
      let newTxs := getSignaturesBefore chain last.signature 10
      if newTxs.isEmpty then existing
      else existing ++ enrich_transactions details pk newTxs

/-- Enrichment of a batch preserves the signature sequence. -/
lemma enrich_transactions_signatures (details : String → Option TxDetail)
    (pubkey : String) (txs : List RawTx) :
    (enrich_transactions details pubkey txs).map EnrichedTx.signature =
      txs.map RawTx.signature := by
  rw [enrich_transactions, List.map_map]
  exact List.map_congr_left fun tx _ => enrich_one_signature details pubkey tx

/-- Dropping while not equal to `a` from a list that carries `a` after an
`a`-free front lands exactly on `a`. -/
lemma dropWhile_ne_reaches (q : List String) (a : String) (t : List String)
    (h : a ∉ q) : (q ++ a :: t).dropWhile (fun x => x != a) = a :: t := by
  induction q with
  | nil => simp [List.dropWhile]
  | cons b q ih =>
    have hb : (b != a) = true := by
      simp only [bne_iff_ne, ne_eq]
      exact fun hba => h (hba ▸ List.mem_cons_self b q)
    have hrec := ih (fun hmem => h (List.mem_cons_of_mem b hmem))
    rw [List.cons_append, List.dropWhile_cons, hb]
    exact hrec

/-- Unfolding lemma: without a public key nothing is fetched. -/
lemma load_more_txs_no_pubkey (chain : List RawTx)
    (details : String → Option TxDetail) (existing : List EnrichedTx) :
    load_more_txs chain details none existing = existing := rfl

/-- Unfolding lemma: with an empty held list nothing is fetched. -/
lemma load_more_txs_no_cursor (chain : List RawTx)
    (details : String → Option TxDetail) (pk : String) (existing : List EnrichedTx)
    (h : existing.getLast? = none) :
    load_more_txs chain details (some pk) existing = existing := by
  unfold load_more_txs
  rw [h]

/-- Unfolding lemma: with a cursor the fetched page is appended unless empty. -/
lemma load_more_txs_cursor (chain : List RawTx)
    (details : String → Option TxDetail) (pk : String) (existing : List EnrichedTx)
    (last : EnrichedTx) (h : existing.getLast? = some last) :
    load_more_txs chain details (some pk) existing =
      if (getSignaturesBefore chain last.signature 10).isEmpty then existing
      else existing ++
        enrich_transactions details pk (getSignaturesBefore chain last.signature 10) := by
  unfold load_more_txs
  rw [h]

/-- C4: when the held list's signatures form an initial segment of the
newest-first chain listing (which has no duplicate signatures), a load-more
call appends to the existing list (keeping every existing entry at its
position), the combined signature list has no duplicates, and it is again an
initial segment of the chain listing, so repeated calls stay duplicate-free. -/
theorem load_more_appends_without_duplicates (chain : List RawTx)
    (details : String → Option TxDetail) (pubkey : Option String)
    (existing : List EnrichedTx)
    (hpre : ∃ t, chain.map RawTx.signature = existing.map EnrichedTx.signature ++ t)
    (hnodup : (chain.map RawTx.signature).Nodup) :
    (∃ rest, load_more_txs chain details pubkey existing = existing ++ rest) ∧
    ((load_more_txs chain details pubkey existing).map EnrichedTx.signature).Nodup ∧
    (∃ t, chain.map RawTx.signature =
      (load_more_txs chain details pubkey existing).map EnrichedTx.signature ++ t) := by
  obtain ⟨t, hchain⟩ := hpre
  have hexnodup : (existing.map EnrichedTx.signature).Nodup := by
    refine hnodup.sublist ?_
    rw [hchain]
    exact List.sublist_append_left _ _
  cases pubkey with
  | none =>
    rw [load_more_txs_no_pubkey]
    exact ⟨⟨[], by simp⟩, hexnodup, ⟨t, hchain⟩⟩
  | some pk =>
    cases hlast : existing.getLast? with
    | none =>
      rw [load_more_txs_no_cursor chain details pk existing hlast]
      exact ⟨⟨[], by simp⟩, hexnodup, ⟨t, hchain⟩⟩
    | some last =>
      rw [load_more_txs_cursor chain details pk existing last hlast]
      by_cases hempty : (getSignaturesBefore chain last.signature 10).isEmpty
      · rw [if_pos hempty]
        exact ⟨⟨[], by simp⟩, hexnodup, ⟨t, hchain⟩⟩
      · rw [if_neg hempty]
        obtain ⟨q, hqeq⟩ := List.getLast?_eq_some_iff.mp hlast
        have hexsigs : existing.map EnrichedTx.signature
            = q.map EnrichedTx.signature ++ [last.signature] := by
          rw [hqeq]; simp
        have hchain2 : chain.map RawTx.signature
            = q.map EnrichedTx.signature ++ (last.signature :: t) := by
          rw [hchain, hexsigs]; simp
        have hanotin : last.signature ∉ q.map EnrichedTx.signature := by
          have hn := hnodup
          rw [hchain2] at hn
          have := (List.nodup_append.mp hn).2.2
          intro hmem
          exact this hmem (List.mem_cons_self _ _)
        have h1 : (chain.dropWhile
              (fun x => x.signature != last.signature)).map RawTx.signature
            = (chain.map RawTx.signature).dropWhile (fun x => x != last.signature) :=
          (List.dropWhile_map RawTx.signature (fun x => x != last.signature) chain).symm
        have hnewsigs : (getSignaturesBefore chain last.signature 10).map RawTx.signature
            = t.take 10 := by
          calc (getSignaturesBefore chain last.signature 10).map RawTx.signature
              = (((chain.dropWhile (fun x => x.signature != last.signature)).drop 1).map
                  RawTx.signature).take 10 := by
                rw [getSignaturesBefore, List.map_take]
            _ = (((chain.dropWhile (fun x => x.signature != last.signature)).map
                  RawTx.signature).drop 1).take 10 := by rw [List.map_drop]
            _ = (((chain.map RawTx.signature).dropWhile
                  (fun x => x != last.signature)).drop 1).take 10 := by rw [h1]
            _ = ((last.signature :: t).drop 1).take 10 := by
                rw [hchain2, dropWhile_ne_reaches _ _ _ hanotin]
            _ = t.take 10 := rfl
        have hressigs : (existing ++
              enrich_transactions details pk
                (getSignaturesBefore chain last.signature 10)).map EnrichedTx.signature
            = existing.map EnrichedTx.signature ++ t.take 10 := by
          rw [List.map_append, enrich_transactions_signatures, hnewsigs]
        have hfinal : chain.map RawTx.signature
            = (existing ++ enrich_transactions details pk
                (getSignaturesBefore chain last.signature 10)).map EnrichedTx.signature
              ++ t.drop 10 := by
          rw [hressigs, hchain, List.append_assoc, List.take_append_drop]
        refine ⟨⟨_, rfl⟩, ?_, ⟨t.drop 10, hfinal⟩⟩
        refine hnodup.sublist ?_
        rw [hfinal]
        exact List.sublist_append_left _ _

/-- A concrete three-entry chain for exercising the pagination model. -/
def chain3 : List RawTx :=
  [{ signature := "s1", slot := 30, blockTime := none, err := none },
   { signature := "s2", slot := 20, blockTime := none, err := none },
   { signature := "s3", slot := 10, blockTime := none, err := none }]

/-- A held list holding the newest chain entry only. -/
def held1 : List EnrichedTx :=
  [{ signature := "s1", slot := 30, blockTime := none, err := none }]

/-- Witness for C4: loading more on a one-entry held list over `chain3`
appends without duplicating any signature. -/
theorem load_more_appends_without_duplicates_witness :
    (∃ rest, load_more_txs chain3 (fun _ => none) (some "owner") held1
        = held1 ++ rest) ∧
    ((load_more_txs chain3 (fun _ => none) (some "owner") held1).map
        EnrichedTx.signature).Nodup ∧
    (∃ t, chain3.map RawTx.signature =
      (load_more_txs chain3 (fun _ => none) (some "owner") held1).map
        EnrichedTx.signature ++ t) := by
  exact load_more_appends_without_duplicates chain3 (fun _ => none) (some "owner") held1
    ⟨["s2", "s3"], by decide⟩ (by decide)

/-- One entry of the `KNOWN_TOKENS` table in `token_fetcher.py`. -/
structure KnownToken where
  mint : String
  decimals : Nat
  symbol : String
  icon : String
  deriving Repr, DecidableEq

/-- The `KNOWN_TOKENS` table, in dict insertion order
(token_fetcher.py lines 10-49). -/
def KNOWN_TOKENS : List KnownToken :=
  [{ mint := "EPjFWdd5AufqSSqeM2qN1xzybapC8G4wEGGkZwyTDt1v", decimals := 6,
     symbol := "USDC", icon := "B" },
   { mint := "Gh9ZwEmdLJ8DscKNTkTqPbNwLNNBjuSzaG9Vp2KGtKJr", decimals := 6,
     symbol := "USDC", icon := "B" },
   { mint := "Es9vMFrzaCERmJfrF4H2FYD4KCoNkY11McCe8BenwNYB", decimals := 6,
     symbol := "USDT", icon := "G" },
   { mint := "4k3Dyjzvzp8eMZWUXbBCjEvwSkkk59S5iCNLY3QrkX6R", decimals := 6,
     symbol := "RAY", icon := "Y" },
   { mint := "DezXAZ8z7PnrnRJjz3wXBoRgixCa6xjnB7YaB1pPB263", decimals := 5,
     symbol := "BONK", icon := "D" },
   { mint := "JUPyiwrYJFskUPiHa7hkeR8VUtAeFoSYbKedZNsDvCN", decimals := 6,
     symbol := "JUP", icon := "P" }]

/-- The fields of a `getTokenAccountsByOwner` entry that
`TokenFetcher.parse_token_balance` reads (`info.mint`,
`info.tokenAmount.uiAmount`, `info.tokenAmount.decimals`).  A missing JSON
key is `none` (Python's `.get` default). -/
structure TokenAccountInfo where
  mint : Option String
  uiAmount : Option ℚ
  decimals : Nat
  deriving Repr, DecidableEq

/-- The dict built by `parse_token_balance`. -/
structure ParsedToken where
  mint : Option String
  symbol : String
  icon : String
  balance : ℚ
  decimals : Nat
  is_known : Bool
  deriving Repr, DecidableEq

/-- `TokenFetcher.parse_token_balance` (token_fetcher.py lines 83-114) on a
well-shaped account entry: look the mint up in `KNOWN_TOKENS` (first match in
insertion order), fall back to symbol "Unknown", keep zero balances. -/
def parse_token_balance (acct : TokenAccountInfo) : ParsedToken :=
  let tokenInfo := KNOWN_TOKENS.find? (fun d => acct.mint = some d.mint)
  { mint := acct.mint
    symbol := match tokenInfo with | some i => i.symbol | none => "Unknown"
    icon := match tokenInfo with | some i => i.icon | none => "C"
    balance := acct.uiAmount.getD 0
    decimals := acct.decimals
    is_known := tokenInfo.isSome }

/-- The sort order of `balances.sort(key=lambda x: (not x["is_known"], -x["balance"]))`:
known tokens first, then descending balance. -/
def tokenOrder (a b : ParsedToken) : Prop :=
  (a.is_known = true ∧ b.is_known = false) ∨
  (a.is_known = b.is_known ∧ b.balance ≤ a.balance)

instance : DecidableRel tokenOrder := fun a b => by
  unfold tokenOrder
  infer_instance

instance : IsTotal ParsedToken tokenOrder := by
  constructor
  intro a b
  unfold tokenOrder
  rcases ha : a.is_known <;> rcases hb : b.is_known <;>
    rcases le_total b.balance a.balance with h | h <;> tauto

instance : IsTrans ParsedToken tokenOrder := by
  constructor
  intro a b c hab hbc
  unfold tokenOrder at hab hbc ⊢
  rcases hab with ⟨h1, h2⟩ | ⟨h1, h2⟩ <;> rcases hbc with ⟨h3, h4⟩ | ⟨h3, h4⟩
  · rw [h2] at h3; cases h3
  · exact Or.inl ⟨h1, h3 ▸ h2⟩
  · exact Or.inl ⟨h1 ▸ h3, h4⟩
  · exact Or.inr ⟨h1.trans h3, h4.trans h2⟩

/-- `TokenFetcher.get_all_token_balances` (token_fetcher.py lines 116-130) on
well-shaped account entries: parse every account (zero balances included) and
stable-sort by (known first, descending balance).  Python's `list.sort` is a
stable sort, as is `List.insertionSort`, so both produce the same list. -/
def get_all_token_balances (accounts : List TokenAccountInfo) : List ParsedToken :=
  List.insertionSort tokenOrder (accounts.map parse_token_balance)

/-- C10: the balance list is a permutation of one parsed entry per token
account (zero balances included), sorted known-tokens-first and by descending
balance within each group, and an account whose mint is not in the known-token
table still appears, with symbol "Unknown". -/
theorem get_all_token_balances_spec (accounts : List TokenAccountInfo) :
    (get_all_token_balances accounts).Perm (accounts.map parse_token_balance) ∧
    (get_all_token_balances accounts).length = accounts.length ∧
    List.Sorted tokenOrder (get_all_token_balances accounts) ∧
    ∀ acct ∈ accounts, (∀ k ∈ KNOWN_TOKENS, acct.mint ≠ some k.mint) →
      parse_token_balance acct ∈ get_all_token_balances accounts ∧
      (parse_token_balance acct).symbol = "Unknown" := by
  refine ⟨List.perm_insertionSort _ _, ?_, List.sorted_insertionSort _ _, ?_⟩
  · rw [get_all_token_balances,
      (List.perm_insertionSort tokenOrder (accounts.map parse_token_balance)).length_eq,
      List.length_map]
  · intro acct hmem hunknown
    constructor
    · rw [get_all_token_balances, List.mem_insertionSort]
      exact List.mem_map_of_mem parse_token_balance hmem
    · have hfind : KNOWN_TOKENS.find? (fun d => acct.mint = some d.mint) = none := by
        rw [List.find?_eq_none]
        intro k hk
        simpa using hunknown k hk
      rw [parse_token_balance]
      simp only [hfind]

/-- A concrete USDT token account with balance 5. -/
def acctUSDT : TokenAccountInfo :=
  { mint := some "Es9vMFrzaCERmJfrF4H2FYD4KCoNkY11McCe8BenwNYB",
    uiAmount := some 5, decimals := 6 }

/-- A concrete token account with an unrecognised mint and balance 9. -/
def acctUnknown : TokenAccountInfo :=
  { mint := some "XYZUnknownMint", uiAmount := some 9, decimals := 2 }

/-- Witness for C10 on a two-account wallet: both accounts survive, the list
is sorted known-first, and the unrecognised mint keeps symbol "Unknown". -/
theorem get_all_token_balances_spec_witness :
    (get_all_token_balances [acctUnknown, acctUSDT]).length = 2 ∧
    List.Sorted tokenOrder (get_all_token_balances [acctUnknown, acctUSDT]) ∧
    parse_token_balance acctUnknown ∈ get_all_token_balances [acctUnknown, acctUSDT] ∧
    (parse_token_balance acctUnknown).symbol = "Unknown" := by
  obtain ⟨-, hlen, hsorted, hunknown⟩ :=
    get_all_token_balances_spec [acctUnknown, acctUSDT]
  obtain ⟨hin, hsym⟩ := hunknown acctUnknown (by decide) (by decide)
  exact ⟨hlen, hsorted, hin, hsym⟩

/-- The token-selection state of `LivePortfolioPanel`: the reactive `tokens`
list and `selected_index` (0 = SOL, 1..N = tokens). -/
structure PortfolioPanel where
  tokens : List ParsedToken
  selected_index : Int
  deriving Repr, DecidableEq

/-- `LivePortfolioPanel.action_select_prev` (tui_wallet.py lines 108-111). -/
def action_select_prev (p : PortfolioPanel) : PortfolioPanel :=
  if p.selected_index > 0 then { p with selected_index := p.selected_index - 1 } else p

/-- `LivePortfolioPanel.action_select_next` (tui_wallet.py lines 113-117). -/
def action_select_next (p : PortfolioPanel) : PortfolioPanel :=
  if p.selected_index < p.tokens.length then
    { p with selected_index := p.selected_index + 1 }
  else p

/-- Assignment of a fresh token list to the panel's reactive `tokens`
(`ColdstarLiveWallet._update_tokens`, line 1336): the stored
`selected_index` is not touched. -/
def update_tokens (p : PortfolioPanel) (ts : List ParsedToken) : PortfolioPanel :=
  { p with tokens := ts }

/-- `ColdstarLiveWallet._apply_token_selection` (tui_wallet.py lines
1340-1362): the token the detail/security panels are pointed at, `none`
meaning the native SOL asset. -/
def apply_token_selection (currentTokens : List ParsedToken) (index : Int) :
    Option ParsedToken :=
  if index ≤ 0 then none
  else if currentTokens.isEmpty then none
  else
    let index := if currentTokens.length ≤ index - 1 then 1 else index
    currentTokens[(index - 1).toNat]?

/-- A concrete token used to populate panels, tagged by a number. -/
def tok (n : Nat) : ParsedToken :=
  { mint := some (toString n), symbol := "TOK", icon := "C",
    balance := n, decimals := 0, is_known := false }

/-- Counterexample to C5 as stated: starting from a five-token panel at
index 0, five select-next steps reach index 5; shrinking the token list to
three leaves the stored index at 5, outside [0, tokenCount] = [0, 3], and the
selection resolves to the first token, not the nearest valid index 3 (whose
token is `tok 3`). -/
theorem selection_shrink_counterexample :
    (update_tokens
        (action_select_next (action_select_next (action_select_next
          (action_select_next (action_select_next
            { tokens := [tok 1, tok 2, tok 3, tok 4, tok 5],
              selected_index := 0 })))))
        [tok 1, tok 2, tok 3]).selected_index = 5 ∧
    ¬ ((5 : Int) ≤ ([tok 1, tok 2, tok 3] : List ParsedToken).length) ∧
    apply_token_selection [tok 1, tok 2, tok 3] 5 = some (tok 1) ∧
    tok 1 ≠ tok 3 := by
  refine ⟨?_, by decide, ?_, by decide⟩
  · rfl
  · rfl

/-- C5 amended: the arrow-key actions keep an in-range index inside
[0, tokenCount]; replacing the token list leaves the stored index unchanged
(it can therefore exceed the new tokenCount); resolution never goes out of
bounds — an index of at most 0 or an empty list resolves to the native asset,
any resolved token is a member of the current list, and an index beyond the
list falls back to the first token. -/
theorem selection_resolution_valid :
    (∀ p : PortfolioPanel,
      0 ≤ p.selected_index → p.selected_index ≤ p.tokens.length →
        (0 ≤ (action_select_next p).selected_index ∧
          (action_select_next p).selected_index ≤ p.tokens.length) ∧
        (0 ≤ (action_select_prev p).selected_index ∧
          (action_select_prev p).selected_index ≤ p.tokens.length)) ∧
    (∀ (p : PortfolioPanel) (ts : List ParsedToken),
      (update_tokens p ts).selected_index = p.selected_index) ∧
    (∀ (tokens : List ParsedToken) (index : Int),
      (index ≤ 0 → apply_token_selection tokens index = none) ∧
      (∀ t, apply_token_selection tokens index = some t → t ∈ tokens) ∧
      (tokens ≠ [] → (tokens.length : Int) < index →
        apply_token_selection tokens index = tokens.head?)) := by
  refine ⟨?_, fun p ts => rfl, ?_⟩
  · intro p h0 hlen
    unfold action_select_next action_select_prev
    constructor
    · split
      · dsimp only
        omega
      · exact ⟨h0, hlen⟩
    · split
      · dsimp only
        omega
      · exact ⟨h0, hlen⟩
  · intro tokens index
    refine ⟨?_, ?_, ?_⟩
    · intro hle
      unfold apply_token_selection
      rw [if_pos hle]
    · intro t ht
      unfold apply_token_selection at ht
      split at ht
      · cases ht
      · split at ht
        · cases ht
        · exact List.getElem?_mem ht
    · intro hne hgt
      have hnonempty : ¬ tokens.isEmpty := by
        simpa [List.isEmpty_iff] using hne
      have hpos : ¬ index ≤ 0 := by
        have : (0 : Int) ≤ tokens.length := Int.ofNat_nonneg _
        omega
      have hfall : (tokens.length : Int) ≤ index - 1 := by omega
      unfold apply_token_selection
      rw [if_neg hpos, if_neg hnonempty, if_pos hfall]
      simp [List.head?_eq_getElem?]

/-- Witness for the amended C5: on a two-token panel at index 2, select-next
stays at 2, a shrink to one token keeps the index, and resolving index 2
against the one-token list lands on that token. -/
theorem selection_resolution_valid_witness :
    ((action_select_next { tokens := [tok 1, tok 2], selected_index := 2
        : PortfolioPanel }).selected_index ≤ 2) ∧
    (update_tokens { tokens := [tok 1, tok 2], selected_index := 2
        : PortfolioPanel } [tok 1]).selected_index = 2 ∧
    apply_token_selection [tok 1] 2 = some (tok 1) := by
  obtain ⟨hmove, hupd, hres⟩ := selection_resolution_valid
  refine ⟨?_, ?_, ?_⟩
  · have h := (hmove { tokens := [tok 1, tok 2], selected_index := 2 }
      (by decide) (by decide)).1.2
    simpa using h
  · exact hupd { tokens := [tok 1, tok 2], selected_index := 2 } [tok 1]
  · have h := (hres [tok 1] 2).2.2 (by decide) (by decide)
    simpa using h

/-- The paging state of `TransactionHistoryPanel`: the cached transaction
list, the visible `page_size` (starts at 5) and the selection index. -/
structure TxPanel where
  transactions : List EnrichedTx
  page_size : Nat
  selected_index : Nat
  deriving Repr, DecidableEq

/-- `TransactionHistoryPanel.action_select_next` (tui_wallet.py lines
529-533), paired with whether the step posts a `LoadMore` message (it never
does): advancing past the visible window only grows `page_size` by 5 while
cached entries remain. -/
def tx_action_select_next (p : TxPanel) : TxPanel × Bool :=
  if p.selected_index < max 0 (p.transactions.length - 1) then
    let i := p.selected_index + 1
    if p.page_size ≤ i ∧ p.page_size < p.transactions.length then
      ({ p with selected_index := i, page_size := p.page_size + 5 }, false)
    else
      ({ p with selected_index := i }, false)
  else (p, false)

/-- `TransactionHistoryPanel.on_button_pressed` for `btn-load-more`
(tui_wallet.py lines 540-543), paired with whether a `LoadMore` message is
posted (it always is). -/
def tx_press_load_more (p : TxPanel) : TxPanel × Bool :=
  ({ p with page_size := p.page_size + 5 }, true)

/-- The guard of `ColdstarLiveWallet.on_transaction_history_panel_load_more`
(tui_wallet.py lines 1367-1380): on a posted `LoadMore`, a background fetch
is started whenever a public key is loaded and a cursor (last held signature)
exists. -/
def load_more_fetch_issued (pubkey : Option String) (p : TxPanel) : Bool :=
  match pubkey with
  | none => false
  | some _ => !p.transactions.isEmpty

/-- The `has_more` condition of `refresh_history` (line 562): cached entries
beyond the current visible window remain, which is exactly when the
load-more button is displayed. -/
def cached_beyond_window (p : TxPanel) : Prop :=
  p.page_size < p.transactions.length

/-- A ten-entry cache for exercising the paging model. -/
def cache10 : List EnrichedTx :=
  (List.range 10).map fun i =>
    { signature := toString i, slot := i, blockTime := none, err := none }

/-- Counterexample to C9 as stated: with ten cached entries and a window of
five, the visible load-more button grows the page size by 5 AND posts
`LoadMore`, and the app-side handler issues a network fetch even though five
cached entries beyond the window remain. -/
theorem load_more_fetches_despite_cache_counterexample :
    cached_beyond_window { transactions := cache10, page_size := 5, selected_index := 0 } ∧
    (tx_press_load_more
      { transactions := cache10, page_size := 5, selected_index := 0 }).2 = true ∧
    load_more_fetch_issued (some "PK")
      { transactions := cache10, page_size := 5, selected_index := 0 } = true := by
  refine ⟨?_, rfl, by decide⟩
  show 5 < cache10.length
  decide

/-- C9 amended: advancing the selection never posts `LoadMore` (so it never
triggers a fetch) and does not change the cached list, growing the window by
5 only while cached entries remain; the explicit load-more button always
grows the window by 5 and always posts `LoadMore`, upon which the app issues
a fetch exactly when a public key and a non-empty cached list (the cursor)
exist — regardless of whether cached entries beyond the window remain. -/
theorem paging_fetch_behaviour (p : TxPanel) (pubkey : Option String) :
    ((tx_action_select_next p).2 = false ∧
      (tx_action_select_next p).1.transactions = p.transactions ∧
      ((tx_action_select_next p).1.page_size = p.page_size ∨
        ((tx_action_select_next p).1.page_size = p.page_size + 5 ∧
          p.page_size < p.transactions.length))) ∧
    ((tx_press_load_more p).1.page_size = p.page_size + 5 ∧
      (tx_press_load_more p).2 = true) ∧
    (load_more_fetch_issued pubkey p = true ↔
      pubkey.isSome ∧ p.transactions ≠ []) := by
  refine ⟨?_, ⟨rfl, rfl⟩, ?_⟩
  · unfold tx_action_select_next
    split
    · dsimp only
      split
      · rename_i hgrow
        exact ⟨rfl, rfl, Or.inr ⟨rfl, hgrow.2⟩⟩
      · exact ⟨rfl, rfl, Or.inl rfl⟩
    · exact ⟨rfl, rfl, Or.inl rfl⟩
  · unfold load_more_fetch_issued
    cases pubkey with
    | none => simp
    | some pk => simp [List.isEmpty_iff]

/-- Witness for the amended C9: on the ten-entry cache with a window of 5 and
selection at 4, select-next grows the window without fetching, and the
load-more handler issues a fetch for a loaded key. -/
theorem paging_fetch_behaviour_witness :
    (tx_action_select_next
      { transactions := cache10, page_size := 5, selected_index := 4 }).2 = false ∧
    (tx_press_load_more
      { transactions := cache10, page_size := 5, selected_index := 4 }).1.page_size = 10 ∧
    load_more_fetch_issued (some "PK")
      { transactions := cache10, page_size := 5, selected_index := 4 } = true := by
  obtain ⟨⟨hsel, -, -⟩, ⟨hgrow, -⟩, hiff⟩ :=
    paging_fetch_behaviour
      { transactions := cache10, page_size := 5, selected_index := 4 } (some "PK")
  exact ⟨hsel, hgrow, hiff.mpr ⟨rfl, by decide⟩⟩

/-- A USB device dict as produced by `detect_usb_devices`: the fields read by
`_fetch_wallet_data`. -/
structure Device where
  device : String
  mountpoint : Option String
  model : String
  size : String
  deriving Repr, DecidableEq

/-- The placeholder used to total-ise indexing into the detected list; it is
only ever read at an in-bounds index. -/
def noDevice : Device := { device := "", mountpoint := none, model := "", size := "" }

/-- The session state mutated by `ColdstarLiveWallet`: display connectivity,
detected device list, status-bar mode, device selection,
`usb_manager.mount_point`, and the committed wallet fields. -/
structure AppState where
  network_connected : Bool
  devices : List Device
  mode : String
  selected_device_index : Option Nat
  mount_point : Option String
  current_public_key : Option String
  current_balance : ℚ
  current_tokens : List ParsedToken
  transactions : List EnrichedTx
  deriving Repr, DecidableEq

/-- The environment of one poll cycle: the outcome each external call would
produce this cycle.  `can_attempt_mount` is the 5-second mount rate limit
having elapsed; `none` results are failures. -/
structure PollEnv where
  connected : Bool
  detected : List Device
  can_attempt_mount : Bool
  mount_result : Option String
  pubkey_file : Option String
  balance_result : Option ℚ
  tokens_result : List ParsedToken
  tx_history : Option (List RawTx)
  details : String → Option TxDetail

/-- Final pipeline stage of `_fetch_wallet_data` (tui_wallet.py lines
1211-1215): fetch the first history page and commit it enriched, unless the
fetch fails or is empty. -/
def stage_txs (env : PollEnv) (pk : String) (s : AppState) : AppState :=
  match env.tx_history with
  | none => s
  | some txs =>
    if txs.isEmpty then s
    else { s with transactions := enrich_transactions env.details pk txs }

/-- Balance and token stages of `_fetch_wallet_data` (lines 1199-1209): a
`none` balance halts the pipeline; otherwise balance and then the token list
are committed and the history stage runs. -/
def stage_balance (env : PollEnv) (pk : String) (s : AppState) : AppState :=
  match env.balance_result with
  | none => s
  | some b =>
    stage_txs env pk { s with current_balance := b, current_tokens := env.tokens_result }

/-- The `if not connected: return` re-check of `_fetch_wallet_data`
(lines 1196-1197) in front of the balance stage. -/
def stage_connected (env : PollEnv) (pk : String) (s : AppState) : AppState :=
  if env.connected = false then s else stage_balance env pk s

/-- Public-key stage of `_fetch_wallet_data` (lines 1188-1194): a missing
`wallet/pubkey.txt` halts the pipeline; otherwise the key is committed and
the later stages run. -/
def stage_pubkey (env : PollEnv) (s : AppState) : AppState :=
  match env.pubkey_file with
  | none => s
  | some pk => stage_connected env pk { s with current_public_key := some pk }

/-- The `if not self.usb_manager.mount_point: return` gate of
`_fetch_wallet_data` (lines 1185-1186). -/
def stage_after_mount (env : PollEnv) (s : AppState) : AppState :=
  match s.mount_point with
  | none => s
  | some _ => stage_pubkey env s

/-- The value `usb_manager.mount_point` holds after the mount step of
`_fetch_wallet_data` (lines 1169-1181): the device's reported mount point if
any, else the result of a rate-limited mount attempt, else the previously
held value. -/
def computed_mount_point (env : PollEnv) (device : Device) (s : AppState) :
    Option String :=
  match device.mountpoint with
  | some m => some m
  | none =>
    if env.can_attempt_mount then
      match env.mount_result with
      | some m => some m
      | none => s.mount_point
    else s.mount_point

/-- Mount stage of `_fetch_wallet_data` (lines 1169-1186): adopt the computed
mount point, set the status bar to READY and continue behind the mount-point
gate. -/
def stage_mount (env : PollEnv) (device : Device) (s : AppState) : AppState :=
  stage_after_mount env
    { s with mount_point := computed_mount_point env device s, mode := "READY" }

/-- `ColdstarLiveWallet._fetch_wallet_data` (tui_wallet.py lines 1134-1215):
the staged poll pipeline.  Each stage commits its result immediately; every
failure is an early return that leaves all later-stage fields untouched. -/
def fetch_wallet_data (env : PollEnv) (s : AppState) : AppState :=
  let s := { s with network_connected := env.connected }
  let s := { s with devices := env.detected }
  if env.detected.isEmpty then { s with mode := "OFFLINE" }
  else
    let sel : Option Nat :=
      if env.detected.length = 1 then some 0
      else
        match s.selected_device_index with
        | none => none
        | some i => if env.detected.length ≤ i then none else some i
    match sel with
    | none => { s with mode := "SELECT USB" }
    | some i =>
      stage_mount env (env.detected.getD i noDevice)
        { s with selected_device_index := some i }

/-- `ColdstarLiveWallet.on_device_panel_device_selected` (tui_wallet.py lines
1318-1320): record the newly selected device index.  The `refresh_data()`
call it makes only schedules `fetch_wallet_data` on a background worker; no
session field is touched synchronously. -/
def on_device_panel_device_selected (index : Nat) (s : AppState) : AppState :=
  { s with selected_device_index := some index }

/-- `ColdstarLiveWallet.action_unmount` (tui_wallet.py lines 1566-1584): with
a mounted device, a successful `unmount_device()` (modelled from the spec:
the external `unmount()` releases the mount point) clears public key, balance
and token list; an unmount exception leaves everything unchanged, as does the
no-mount case. -/
def action_unmount (unmount_ok : Bool) (s : AppState) : AppState :=
  match s.mount_point with
  | none => s
  | some _ =>
    if unmount_ok then
      { s with mount_point := none, current_public_key := none,
               current_balance := 0, current_tokens := [] }
    else s

/-- The history stage writes only `transactions`. -/
lemma stage_txs_frames (env : PollEnv) (pk : String) (s : AppState) :
    (stage_txs env pk s).mount_point = s.mount_point ∧
    (stage_txs env pk s).current_public_key = s.current_public_key ∧
    (stage_txs env pk s).current_balance = s.current_balance ∧
    (stage_txs env pk s).current_tokens = s.current_tokens := by
  unfold stage_txs
  split
  · exact ⟨rfl, rfl, rfl, rfl⟩
  · split
    · exact ⟨rfl, rfl, rfl, rfl⟩
    · exact ⟨rfl, rfl, rfl, rfl⟩

/-- A failed history fetch changes nothing. -/
lemma stage_txs_of_no_history (env : PollEnv) (pk : String) (s : AppState)
    (h : env.tx_history = none) : stage_txs env pk s = s := by
  unfold stage_txs
  rw [h]

/-- The balance stage leaves the mount point and public key alone. -/
lemma stage_balance_frames (env : PollEnv) (pk : String) (s : AppState) :
    (stage_balance env pk s).mount_point = s.mount_point ∧
    (stage_balance env pk s).current_public_key = s.current_public_key := by
  unfold stage_balance
  split
  · exact ⟨rfl, rfl⟩
  · obtain ⟨h1, h2, -, -⟩ := stage_txs_frames env pk
      { s with current_balance := _, current_tokens := env.tokens_result }
    exact ⟨h1, h2⟩

/-- A `none` balance halts the balance stage entirely. -/
lemma stage_balance_of_none (env : PollEnv) (pk : String) (s : AppState)
    (h : env.balance_result = none) : stage_balance env pk s = s := by
  unfold stage_balance
  rw [h]

/-- With no history result the balance stage leaves `transactions` alone. -/
lemma stage_balance_txs_frame (env : PollEnv) (pk : String) (s : AppState)
    (h : env.tx_history = none) :
    (stage_balance env pk s).transactions = s.transactions := by
  unfold stage_balance
  split
  · rfl
  · rw [stage_txs_of_no_history env pk _ h]

/-- Without connectivity the re-check halts everything after the key read. -/
lemma stage_connected_of_disconnected (env : PollEnv) (pk : String) (s : AppState)
    (h : env.connected = false) : stage_connected env pk s = s := by
  unfold stage_connected
  rw [h]
  rfl

/-- A `none` balance halts the connected stage. -/
lemma stage_connected_of_balance_none (env : PollEnv) (pk : String) (s : AppState)
    (h : env.balance_result = none) : stage_connected env pk s = s := by
  unfold stage_connected
  split
  · rfl
  · exact stage_balance_of_none env pk s h

/-- With no history result the connected stage leaves `transactions` alone. -/
lemma stage_connected_txs_frame (env : PollEnv) (pk : String) (s : AppState)
    (h : env.tx_history = none) :
    (stage_connected env pk s).transactions = s.transactions := by
  unfold stage_connected
  split
  · rfl
  · exact stage_balance_txs_frame env pk s h

/-- The connected stage leaves the mount point and public key alone. -/
lemma stage_connected_frames (env : PollEnv) (pk : String) (s : AppState) :
    (stage_connected env pk s).mount_point = s.mount_point ∧
    (stage_connected env pk s).current_public_key = s.current_public_key := by
  unfold stage_connected
  split
  · exact ⟨rfl, rfl⟩
  · exact stage_balance_frames env pk s

/-- A missing key file halts the pubkey stage entirely. -/
lemma stage_pubkey_of_none (env : PollEnv) (s : AppState)
    (h : env.pubkey_file = none) : stage_pubkey env s = s := by
  unfold stage_pubkey
  rw [h]

/-- Without connectivity the pubkey stage leaves balance, tokens and
transactions alone. -/
lemma stage_pubkey_of_disconnected (env : PollEnv) (s : AppState)
    (h : env.connected = false) :
    (stage_pubkey env s).current_balance = s.current_balance ∧
    (stage_pubkey env s).current_tokens = s.current_tokens ∧
    (stage_pubkey env s).transactions = s.transactions := by
  unfold stage_pubkey
  split
  · exact ⟨rfl, rfl, rfl⟩
  · rw [stage_connected_of_disconnected env _ _ h]
    exact ⟨rfl, rfl, rfl⟩

/-- A `none` balance leaves balance, tokens and transactions alone. -/
lemma stage_pubkey_of_balance_none (env : PollEnv) (s : AppState)
    (h : env.balance_result = none) :
    (stage_pubkey env s).current_balance = s.current_balance ∧
    (stage_pubkey env s).current_tokens = s.current_tokens ∧
    (stage_pubkey env s).transactions = s.transactions := by
  unfold stage_pubkey
  split
  · exact ⟨rfl, rfl, rfl⟩
  · rw [stage_connected_of_balance_none env _ _ h]
    exact ⟨rfl, rfl, rfl⟩

/-- With no history result the pubkey stage leaves `transactions` alone. -/
lemma stage_pubkey_txs_frame (env : PollEnv) (s : AppState)
    (h : env.tx_history = none) :
    (stage_pubkey env s).transactions = s.transactions := by
  unfold stage_pubkey
  split
  · rfl
  · exact stage_connected_txs_frame env _ _ h

/-- The pubkey stage leaves the mount point alone. -/
lemma stage_pubkey_mount_frame (env : PollEnv) (s : AppState) :
    (stage_pubkey env s).mount_point = s.mount_point := by
  unfold stage_pubkey
  split
  · rfl
  · exact (stage_connected_frames env _ _).1

/-- No mount point: the gate halts everything behind it. -/
lemma stage_after_mount_of_none (env : PollEnv) (s : AppState)
    (h : s.mount_point = none) : stage_after_mount env s = s := by
  unfold stage_after_mount
  rw [h]

/-- Lifting the pubkey-stage frames over the mount-point gate. -/
lemma stage_after_mount_of_pubkey_none (env : PollEnv) (s : AppState)
    (h : env.pubkey_file = none) : stage_after_mount env s = s := by
  unfold stage_after_mount
  split
  · rfl
  · exact stage_pubkey_of_none env s h

/-- Lifting the disconnected frame over the mount-point gate. -/
lemma stage_after_mount_of_disconnected (env : PollEnv) (s : AppState)
    (h : env.connected = false) :
    (stage_after_mount env s).current_balance = s.current_balance ∧
    (stage_after_mount env s).current_tokens = s.current_tokens ∧
    (stage_after_mount env s).transactions = s.transactions := by
  unfold stage_after_mount
  split
  · exact ⟨rfl, rfl, rfl⟩
  · exact stage_pubkey_of_disconnected env s h

/-- Lifting the balance-failure frame over the mount-point gate. -/
lemma stage_after_mount_of_balance_none (env : PollEnv) (s : AppState)
    (h : env.balance_result = none) :
    (stage_after_mount env s).current_balance = s.current_balance ∧
    (stage_after_mount env s).current_tokens = s.current_tokens ∧
    (stage_after_mount env s).transactions = s.transactions := by
  unfold stage_after_mount
  split
  · exact ⟨rfl, rfl, rfl⟩
  · exact stage_pubkey_of_balance_none env s h

/-- Lifting the history-failure frame over the mount-point gate. -/
lemma stage_after_mount_txs_frame (env : PollEnv) (s : AppState)
    (h : env.tx_history = none) :
    (stage_after_mount env s).transactions = s.transactions := by
  unfold stage_after_mount
  split
  · rfl
  · exact stage_pubkey_txs_frame env s h

/-- When the device reports no mount point, the mount attempt fails, and no
prior mount point is held, the mount stage halts the pipeline with the mount
point still absent. -/
lemma stage_mount_of_unmountable (env : PollEnv) (device : Device) (s : AppState)
    (hdev : device.mountpoint = none) (hmr : env.mount_result = none)
    (hmp : s.mount_point = none) :
    (stage_mount env device s).mount_point = none ∧
    (stage_mount env device s).current_public_key = s.current_public_key ∧
    (stage_mount env device s).current_balance = s.current_balance ∧
    (stage_mount env device s).current_tokens = s.current_tokens ∧
    (stage_mount env device s).transactions = s.transactions := by
  have hcmp : computed_mount_point env device s = none := by
    simp [computed_mount_point, hdev, hmr, hmp]
  unfold stage_mount
  rw [hcmp, stage_after_mount_of_none env _ rfl]
  exact ⟨rfl, rfl, rfl, rfl, rfl⟩

/-- The mount stage's intermediate state before the gate differs from `s`
only in `mount_point` and `mode`, so the later-stage frames lift through. -/
lemma stage_mount_of_pubkey_none (env : PollEnv) (device : Device) (s : AppState)
    (h : env.pubkey_file = none) :
    (stage_mount env device s).current_public_key = s.current_public_key ∧
    (stage_mount env device s).current_balance = s.current_balance ∧
    (stage_mount env device s).current_tokens = s.current_tokens ∧
    (stage_mount env device s).transactions = s.transactions := by
  unfold stage_mount
  rw [stage_after_mount_of_pubkey_none env _ h]
  exact ⟨rfl, rfl, rfl, rfl⟩

/-- Disconnection frame lifted through the mount stage. -/
lemma stage_mount_of_disconnected (env : PollEnv) (device : Device) (s : AppState)
    (h : env.connected = false) :
    (stage_mount env device s).current_balance = s.current_balance ∧
    (stage_mount env device s).current_tokens = s.current_tokens ∧
    (stage_mount env device s).transactions = s.transactions := by
  unfold stage_mount
  exact stage_after_mount_of_disconnected env _ h

/-- Balance-failure frame lifted through the mount stage. -/
lemma stage_mount_of_balance_none (env : PollEnv) (device : Device) (s : AppState)
    (h : env.balance_result = none) :
    (stage_mount env device s).current_balance = s.current_balance ∧
    (stage_mount env device s).current_tokens = s.current_tokens ∧
    (stage_mount env device s).transactions = s.transactions := by
  unfold stage_mount
  exact stage_after_mount_of_balance_none env _ h

/-- History-failure frame lifted through the mount stage. -/
lemma stage_mount_txs_frame (env : PollEnv) (device : Device) (s : AppState)
    (h : env.tx_history = none) :
    (stage_mount env device s).transactions = s.transactions := by
  unfold stage_mount
  exact stage_after_mount_txs_frame env _ h

/-- C6: a failure at any poll stage leaves every field committed by a later
stage untouched: no device → nothing past the device list changes; missing or
invalid multi-device selection → same; mount unavailable → public key,
balance, tokens, transactions keep their previous values; missing key file →
same; network unreachable → balance, tokens, transactions keep their values;
balance fetch returning none → same; empty history → transactions keep their
value. -/
theorem fetch_wallet_data_partial_failure_frame (env : PollEnv) (s : AppState) :
    (env.detected = [] →
      (fetch_wallet_data env s).mount_point = s.mount_point ∧
      (fetch_wallet_data env s).current_public_key = s.current_public_key ∧
      (fetch_wallet_data env s).current_balance = s.current_balance ∧
      (fetch_wallet_data env s).current_tokens = s.current_tokens ∧
      (fetch_wallet_data env s).transactions = s.transactions) ∧
    (env.detected.length ≠ 1 →
      (s.selected_device_index = none ∨
        ∃ i, s.selected_device_index = some i ∧ env.detected.length ≤ i) →
      (fetch_wallet_data env s).mount_point = s.mount_point ∧
      (fetch_wallet_data env s).current_public_key = s.current_public_key ∧
      (fetch_wallet_data env s).current_balance = s.current_balance ∧
      (fetch_wallet_data env s).current_tokens = s.current_tokens ∧
      (fetch_wallet_data env s).transactions = s.transactions) ∧
    (s.mount_point = none → (∀ d ∈ env.detected, d.mountpoint = none) →
      env.mount_result = none →
      (fetch_wallet_data env s).mount_point = none ∧
      (fetch_wallet_data env s).current_public_key = s.current_public_key ∧
      (fetch_wallet_data env s).current_balance = s.current_balance ∧
      (fetch_wallet_data env s).current_tokens = s.current_tokens ∧
      (fetch_wallet_data env s).transactions = s.transactions) ∧
    (env.pubkey_file = none →
      (fetch_wallet_data env s).current_public_key = s.current_public_key ∧
      (fetch_wallet_data env s).current_balance = s.current_balance ∧
      (fetch_wallet_data env s).current_tokens = s.current_tokens ∧
      (fetch_wallet_data env s).transactions = s.transactions) ∧
    (env.connected = false →
      (fetch_wallet_data env s).current_balance = s.current_balance ∧
      (fetch_wallet_data env s).current_tokens = s.current_tokens ∧
      (fetch_wallet_data env s).transactions = s.transactions) ∧
    (env.balance_result = none →
      (fetch_wallet_data env s).current_balance = s.current_balance ∧
      (fetch_wallet_data env s).current_tokens = s.current_tokens ∧
      (fetch_wallet_data env s).transactions = s.transactions) ∧
    (env.tx_history = none →
      (fetch_wallet_data env s).transactions = s.transactions) := by
  refine ⟨?_, ?_, ?_, ?_, ?_, ?_, ?_⟩
  · intro h
    simp [fetch_wallet_data, h]
  · intro hlen hsel
    unfold fetch_wallet_data
    by_cases hemp : env.detected.isEmpty
    · rw [if_pos hemp]
      exact ⟨rfl, rfl, rfl, rfl, rfl⟩
    · rw [if_neg hemp]
      dsimp only
      rw [if_neg hlen]
      rcases hsel with hnone | ⟨i, hsome, hge⟩
      · rw [hnone]
        exact ⟨rfl, rfl, rfl, rfl, rfl⟩
      · rw [hsome]
        dsimp only
        rw [if_pos hge]
        exact ⟨rfl, rfl, rfl, rfl, rfl⟩
  · intro hmp hdevs hmr
    have hd : ∀ j, (env.detected.getD j noDevice).mountpoint = none := by
      intro j
      rcases hj : env.detected[j]? with _ | d
      · rw [List.getD_eq_getElem?_getD, hj]; rfl
      · rw [List.getD_eq_getElem?_getD, hj]
        exact hdevs d (List.getElem?_mem hj)
    unfold fetch_wallet_data
    repeat' (first | split | dsimp only)
    all_goals
      first
      | exact ⟨hmp, rfl, rfl, rfl, rfl⟩
      | exact stage_mount_of_unmountable env _ _ (hd _) hmr hmp
  · intro h
    unfold fetch_wallet_data
    repeat' (first | split | dsimp only)
    all_goals
      first
      | exact ⟨rfl, rfl, rfl, rfl⟩
      | exact stage_mount_of_pubkey_none env _ _ h
  · intro h
    unfold fetch_wallet_data
    repeat' (first | split | dsimp only)
    all_goals
      first
      | exact ⟨rfl, rfl, rfl⟩
      | exact stage_mount_of_disconnected env _ _ h
  · intro h
    unfold fetch_wallet_data
    repeat' (first | split | dsimp only)
    all_goals
      first
      | exact ⟨rfl, rfl, rfl⟩
      | exact stage_mount_of_balance_none env _ _ h
  · intro h
    unfold fetch_wallet_data
    repeat' (first | split | dsimp only)
    all_goals
      first
      | rfl
      | exact stage_mount_txs_frame env _ _ h

/-- A concrete unmounted device. -/
def devA : Device :=
  { device := "/dev/sdb", mountpoint := none, model := "COLDSTAR", size := "8G" }

/-- A second concrete unmounted device. -/
def devB : Device :=
  { device := "/dev/sdc", mountpoint := none, model := "SPARE", size := "4G" }

/-- A session that has already committed a full set of wallet data. -/
def richState : AppState :=
  { network_connected := true, devices := [devA], mode := "READY",
    selected_device_index := some 0, mount_point := none,
    current_public_key := some "OLDKEY", current_balance := 7,
    current_tokens := [tok 2], transactions := held1 }

/-- A poll environment whose balance stage fails (`get_balance` → none). -/
def envBalanceFail : PollEnv :=
  { connected := true, detected := [devA], can_attempt_mount := true,
    mount_result := some "/mnt/usb", pubkey_file := some "NEWKEY",
    balance_result := none, tokens_result := [], tx_history := none,
    details := fun _ => none }

/-- A poll environment whose mount stage fails (no reported mount point and a
failed mount attempt). -/
def envMountFail : PollEnv :=
  { connected := true, detected := [devA, devB], can_attempt_mount := true,
    mount_result := none, pubkey_file := none,
    balance_result := none, tokens_result := [], tx_history := none,
    details := fun _ => none }

/-- Witness for C6: with a committed session, a balance-stage failure leaves
balance, tokens and transactions intact, and a mount-stage failure leaves the
public key intact. -/
theorem fetch_wallet_data_partial_failure_frame_witness :
    (fetch_wallet_data envBalanceFail richState).current_balance
        = richState.current_balance ∧
    (fetch_wallet_data envBalanceFail richState).current_tokens
        = richState.current_tokens ∧
    (fetch_wallet_data envBalanceFail richState).transactions
        = richState.transactions ∧
    (fetch_wallet_data envMountFail richState).current_public_key
        = richState.current_public_key := by
  obtain ⟨-, -, -, -, -, h6, -⟩ :=
    fetch_wallet_data_partial_failure_frame envBalanceFail richState
  obtain ⟨-, -, h3, -, -, -, -⟩ :=
    fetch_wallet_data_partial_failure_frame envMountFail richState
  obtain ⟨hb, ht, htx⟩ := h6 rfl
  exact ⟨hb, ht, htx, (h3 rfl (by decide) rfl).2.1⟩

/-- A session like `richState` on which a second device exists. -/
def staleTwoDev : AppState :=
  { richState with devices := [devA, devB] }

/-- A poll environment matching the situation right after selecting device 1:
two devices, the newly selected one cannot be mounted. -/
def envAfterSelect : PollEnv :=
  { connected := true, detected := [devA, devB], can_attempt_mount := true,
    mount_result := none, pubkey_file := none, balance_result := none,
    tokens_result := [], tx_history := none, details := fun _ => none }

/-- Counterexample to C8 as stated: selecting a different device carries every
session field over — the old public key, balance, token list and transaction
list all survive the select-device operation, and still survive the refresh it
triggers when that refresh fails at the mount stage. -/
theorem select_device_counterexample :
    (on_device_panel_device_selected 1 staleTwoDev).current_public_key
        = some "OLDKEY" ∧
    (on_device_panel_device_selected 1 staleTwoDev).current_balance = 7 ∧
    (on_device_panel_device_selected 1 staleTwoDev).current_tokens = [tok 2] ∧
    (on_device_panel_device_selected 1 staleTwoDev).transactions = held1 ∧
    (fetch_wallet_data envAfterSelect
      (on_device_panel_device_selected 1 staleTwoDev)).current_public_key
        = some "OLDKEY" := by
  exact ⟨rfl, rfl, rfl, rfl, by decide⟩

/-- C8 amended: selecting a different device records the new index and leaves
every session field (public key, balance, tokens, transactions, mount point)
in place until a later successful pipeline stage overwrites it; only an
explicit successful unmount clears the public key, balance and token list
(the transaction list stays even then). -/
theorem select_device_keeps_session (index : Nat) (s : AppState) (ok : Bool) :
    ((on_device_panel_device_selected index s).selected_device_index = some index ∧
      (on_device_panel_device_selected index s).current_public_key
          = s.current_public_key ∧
      (on_device_panel_device_selected index s).current_balance = s.current_balance ∧
      (on_device_panel_device_selected index s).current_tokens = s.current_tokens ∧
      (on_device_panel_device_selected index s).transactions = s.transactions ∧
      (on_device_panel_device_selected index s).mount_point = s.mount_point) ∧
    (s.mount_point ≠ none → ok = true →
      (action_unmount ok s).current_public_key = none ∧
      (action_unmount ok s).current_balance = 0 ∧
      (action_unmount ok s).current_tokens = [] ∧
      (action_unmount ok s).transactions = s.transactions) := by
  refine ⟨⟨rfl, rfl, rfl, rfl, rfl, rfl⟩, ?_⟩
  intro hmp hok
  subst hok
  unfold action_unmount
  split
  · rename_i heq
    exact absurd heq hmp
  · rw [if_pos rfl]
    exact ⟨rfl, rfl, rfl, rfl⟩

/-- A mounted session for exercising the unmount branch. -/
def mountedState : AppState :=
  { richState with mount_point := some "/mnt/usb" }

/-- Witness for the amended C8: selecting device 1 on the mounted session
keeps the old key; a successful unmount then clears it. -/
theorem select_device_keeps_session_witness :
    (on_device_panel_device_selected 1 mountedState).current_public_key
        = some "OLDKEY" ∧
    (action_unmount true mountedState).current_public_key = none ∧
    (action_unmount true mountedState).transactions = mountedState.transactions := by
  obtain ⟨⟨-, hkey, -, -, -, -⟩, hun⟩ :=
    select_device_keeps_session 1 mountedState true
  obtain ⟨hclear, -, -, htx⟩ := hun (by decide) rfl
  exact ⟨hkey.trans rfl, hclear, htx⟩


/-- The fixed network fee used for all estimates and gating,
`fee = 0.000005` (tui_wallet.py lines 738 and 1422). -/
def fixedFee : ℚ := 5 / 1000000

/-- The step of the send flow: Draft (form editing), Confirming (password
entry visible), Signing (the delegated sign-and-broadcast worker started). -/
inductive SendStep where
  | draft
  | confirming
  | signing
  deriving Repr, DecidableEq

/-- The state of `LiveSendPanel` plus what the app-level gate reads: the three
input values, the session balance they are checked against, whether a device
is mounted and a public key is loaded, and the flow step. -/
structure SendFlow where
  toAddress : String
  amountStr : String
  password : String
  balance : ℚ
  mounted : Bool
  hasPubkey : Bool
  step : SendStep
  deriving Repr, DecidableEq

/-- The user events the flow reacts to.  The three inputs stay editable while
the confirm section is shown (nothing disables them), so edit events are
available in Draft and Confirming alike. -/
inductive SendEvent where
  | editAddress (v : String)
  | editAmount (v : String)
  | editPassword (v : String)
  | pressSend
  | pressBack
  | pressConfirm
  deriving Repr, DecidableEq

/-- Python's `str.strip()` on the input values (tui_wallet.py lines 719-720
and 1404-1405), written structurally over the character list so that concrete
instances evaluate. -/
def pystrip (s : String) : String :=
  String.mk (((s.data.dropWhile Char.isWhitespace).reverse.dropWhile
    Char.isWhitespace).reverse)

/-- The validation gate of `LiveSendPanel._show_confirm_step` (tui_wallet.py
lines 716-755): nonempty stripped inputs, delegated address validation, the
amount parses, is positive, and `amount + fee ≤ balance`.  `validate` models
the external `wallet_manager.validate_address`, `parse` models Python's
`float(·)`. -/
def show_confirm_gate (validate : String → Bool) (parse : String → Option ℚ)
    (f : SendFlow) : Bool :=
  if pystrip f.toAddress = "" ∨ pystrip f.amountStr = "" then false
  else if ¬ validate (pystrip f.toAddress) then false
  else
    match parse (pystrip f.amountStr) with
    | none => false
    | some amount =>
      if amount ≤ 0 then false
      else if f.balance < amount + fixedFee then false
      else true

/-- The validation gate of
`ColdstarLiveWallet.on_live_send_panel_send_requested` (tui_wallet.py lines
1401-1439): nonempty password, address validation, the amount parses,
`amount + fee ≤ balance` against the current session balance, a mount point
and a public key exist.  The amount's positivity is not re-checked here. -/
def send_requested_gate (validate : String → Bool) (parse : String → Option ℚ)
    (f : SendFlow) : Bool :=
  if f.password = "" then false
  else if ¬ validate (pystrip f.toAddress) then false
  else
    match parse (pystrip f.amountStr) with
    | none => false
    | some amount =>
      if f.balance < amount + fixedFee then false
      else if ¬ f.mounted then false
      else if ¬ f.hasPubkey then false
      else true

/-- One step of the send flow.  `pressSend` runs `_show_confirm_step`
(failure leaves the step as it was, success shows the confirm section);
`pressBack` runs `_hide_confirm_step` (password discarded); `pressConfirm`
runs the app gate and on success hides the confirm section and starts the
signing worker (`_do_send`).  The signing step is treated as absorbing: it
models the delegated call in flight. -/
def send_flow_step (validate : String → Bool) (parse : String → Option ℚ)
    (e : SendEvent) (f : SendFlow) : SendFlow :=
  if f.step = SendStep.signing then f
  else
    match e with
    | .editAddress v => { f with toAddress := v }
    | .editAmount v => { f with amountStr := v }
    | .editPassword v => { f with password := v }
    | .pressSend =>
      if show_confirm_gate validate parse f then { f with step := .confirming } else f
    | .pressBack =>
      if f.step = SendStep.confirming then
        { f with password := "", step := .draft }
      else f
    | .pressConfirm =>
      if f.step = SendStep.confirming then
        if send_requested_gate validate parse f then
          { f with password := "", step := .signing }
        else f
      else f

/-- Running a list of events through the flow, oldest first. -/
def send_flow_run (validate : String → Bool) (parse : String → Option ℚ)
    (events : List SendEvent) (f : SendFlow) : SendFlow :=
  events.foldl (fun acc e => send_flow_step validate parse e acc) f

/-- Everything a passing final gate guarantees about the flow state. -/
lemma send_requested_gate_spec (validate : String → Bool)
    (parse : String → Option ℚ) (f : SendFlow)
    (hg : send_requested_gate validate parse f = true) :
    f.password ≠ "" ∧ validate (pystrip f.toAddress) = true ∧ f.mounted = true ∧
    f.hasPubkey = true ∧
    ∃ amount, parse (pystrip f.amountStr) = some amount ∧
      amount + fixedFee ≤ f.balance := by
  unfold send_requested_gate at hg
  repeat' split at hg
  all_goals simp_all


/-- A Draft gate fed a non-positively parsing amount always fails. -/
lemma show_confirm_gate_nonpositive (validate : String → Bool)
    (parse : String → Option ℚ) (f : SendFlow) (a : ℚ)
    (hp : parse (pystrip f.amountStr) = some a) (hle : a ≤ 0) :
    show_confirm_gate validate parse f = false := by
  unfold show_confirm_gate
  by_cases hcond : pystrip f.toAddress = "" ∨ pystrip f.amountStr = ""
  · rw [if_pos hcond]
  · rw [if_neg hcond]
    by_cases hv : validate (pystrip f.toAddress)
    · rw [if_neg (by simp [hv])]
      simp only [hp]
      rw [if_pos hle]
    · rw [if_pos (by simp [hv])]

/-- C1 amended: the flow reaches Signing only from Confirming via Confirm and
only when, at that final gate, the password is nonempty, the address
validates, a device is mounted, a key is loaded, and the entered amount
parses with `amount + 0.000005 ≤ balance` against the current session
balance.  Positivity of the amount is enforced only at the Draft → Confirming
gate: a Draft press of Send whose gate fails (in particular one whose amount
parses non-positive) leaves the flow in Draft. -/
theorem send_flow_signing_gate (validate : String → Bool)
    (parse : String → Option ℚ) (e : SendEvent) (f : SendFlow) :
    ((send_flow_step validate parse e f).step = SendStep.signing →
      f.step = SendStep.signing ∨
      (f.step = SendStep.confirming ∧ e = SendEvent.pressConfirm ∧
        f.password ≠ "" ∧ validate (pystrip f.toAddress) = true ∧
        f.mounted = true ∧ f.hasPubkey = true ∧
        ∃ amount, parse (pystrip f.amountStr) = some amount ∧
          amount + fixedFee ≤ f.balance)) ∧
    (f.step = SendStep.draft → show_confirm_gate validate parse f = false →
      (send_flow_step validate parse SendEvent.pressSend f).step
        = SendStep.draft) ∧
    (f.step = SendStep.draft →
      (∃ a, parse (pystrip f.amountStr) = some a ∧ a ≤ 0) →
      (send_flow_step validate parse SendEvent.pressSend f).step
        = SendStep.draft) := by
  refine ⟨?_, ?_, ?_⟩
  · intro hsig
    by_cases hstep : f.step = SendStep.signing
    · exact Or.inl hstep
    right
    unfold send_flow_step at hsig
    rw [if_neg hstep] at hsig
    cases e <;> dsimp only at hsig
    · exact absurd hsig hstep
    · exact absurd hsig hstep
    · exact absurd hsig hstep
    · exfalso
      split at hsig
      · exact SendStep.noConfusion hsig
      · exact hstep hsig
    · exfalso
      split at hsig
      · exact SendStep.noConfusion hsig
      · exact hstep hsig
    · split at hsig
      · rename_i hc
        split at hsig
        · rename_i hg
          obtain ⟨h1, h2, h3, h4, h5⟩ := send_requested_gate_spec validate parse f hg
          exact ⟨hc, rfl, h1, h2, h3, h4, h5⟩
        · exact absurd hsig hstep
      · exact absurd hsig hstep
  · intro hdraft hgate
    unfold send_flow_step
    rw [if_neg (by rw [hdraft]; decide)]
    dsimp only
    rw [hgate]
    simpa using hdraft
  · intro hdraft hneg
    obtain ⟨a, hp, hle⟩ := hneg
    have hgate := show_confirm_gate_nonpositive validate parse f a hp hle
    unfold send_flow_step
    rw [if_neg (by rw [hdraft]; decide)]
    dsimp only
    rw [hgate]
    simpa using hdraft

/-- A concrete stand-in for Python's `float(·)` on the two strings the
counterexample trace uses. -/
def tinyParse : String → Option ℚ :=
  fun s => if s = "0.5" then some (1 / 2) else if s = "-1" then some (-1) else none

/-- A concrete stand-in for `validate_address` accepting one address. -/
def tinyValidate : String → Bool :=
  fun s => s = "DestAddr1111111111111111111111111111111111"

/-- The initial Draft form: valid address, amount 0.5, balance 1 SOL. -/
def draft0 : SendFlow :=
  { toAddress := "DestAddr1111111111111111111111111111111111",
    amountStr := "0.5", password := "hunter2", balance := 1,
    mounted := true, hasPubkey := true, step := .draft }

/-- Counterexample to C1 as stated: press Send (amount 0.5 passes the Draft
gate), edit the amount to "-1" while the confirm section is shown, press
Confirm — the flow reaches Signing although the entered amount at the moment
of the final gate check parses to -1, which is not positive. -/
theorem send_flow_signing_counterexample :
    (send_flow_run tinyValidate tinyParse
      [SendEvent.pressSend, SendEvent.editAmount "-1", SendEvent.pressConfirm]
      draft0).step = SendStep.signing ∧
    tinyParse (pystrip (send_flow_run tinyValidate tinyParse
      [SendEvent.pressSend, SendEvent.editAmount "-1"] draft0).amountStr)
        = some (-1) ∧
    ¬ ((0 : ℚ) < -1) := by
  refine ⟨?_, ?_, by norm_num⟩
  · norm_num +decide [send_flow_run, List.foldl, send_flow_step,
      show_confirm_gate, send_requested_gate, draft0, tinyParse, tinyValidate,
      pystrip, fixedFee]
  · norm_num +decide [send_flow_run, List.foldl, send_flow_step,
      show_confirm_gate, send_requested_gate, draft0, tinyParse, tinyValidate,
      pystrip, fixedFee]

/-- Witness for the amended C1: the trace Send-then-Confirm with amount 0.5
on balance 1 reaches Signing, the gate theorem recovers that
`0.5 + 0.000005 ≤ 1` held at the final gate, and a Draft form whose amount
reads "-1" stays in Draft when Send is pressed. -/
theorem send_flow_signing_gate_witness :
    (send_flow_step tinyValidate tinyParse SendEvent.pressConfirm
      (send_flow_step tinyValidate tinyParse SendEvent.pressSend draft0)).step
        = SendStep.signing ∧
    (∃ amount, tinyParse (pystrip (send_flow_step tinyValidate tinyParse
        SendEvent.pressSend draft0).amountStr) = some amount ∧
      amount + fixedFee ≤ (send_flow_step tinyValidate tinyParse
        SendEvent.pressSend draft0).balance) ∧
    (send_flow_step tinyValidate tinyParse SendEvent.pressSend
      { draft0 with amountStr := "-1" }).step = SendStep.draft := by
  have hsig : (send_flow_step tinyValidate tinyParse SendEvent.pressConfirm
      (send_flow_step tinyValidate tinyParse SendEvent.pressSend draft0)).step
        = SendStep.signing := by
    norm_num +decide [send_flow_step, show_confirm_gate, send_requested_gate,
      draft0, tinyParse, tinyValidate, pystrip, fixedFee]
  obtain ⟨hgate, -, -⟩ := send_flow_signing_gate tinyValidate tinyParse
    SendEvent.pressConfirm
    (send_flow_step tinyValidate tinyParse SendEvent.pressSend draft0)
  obtain ⟨-, -, hstay⟩ := send_flow_signing_gate tinyValidate tinyParse
    SendEvent.pressSend { draft0 with amountStr := "-1" }
  rcases hgate hsig with hpre | ⟨-, -, -, -, -, -, amount, hp, hle⟩
  · exact absurd hpre (by
      norm_num +decide [send_flow_step, show_confirm_gate, send_requested_gate,
        draft0, tinyParse, tinyValidate, pystrip, fixedFee])
  · refine ⟨hsig, ⟨amount, hp, hle⟩, hstay rfl ⟨-1, ?_, by norm_num⟩⟩
    simp +decide [tinyParse, pystrip, draft0]

end Coldstar
